import Mathlib

/-!
Shallow embedding of the `RSSService` component of the line-bot-zeabur
repository (src/app/rss_service.py), covering the subscription store
(`add_feed`, `remove_feed`), the watermark store (`last_check`), and the
poll cycle (`check_updates`).  External collaborators (the feed fetcher
`feedparser.parse`, the wall clock `datetime.now`, the push-notification
API) are modelled as explicit inputs; file persistence is modelled by the
in-memory maps themselves (every mutation in the source is immediately
followed by a full-file write of the same map, so the in-memory map and
the persisted map always agree at operation boundaries).
-/

namespace RSS

/-- One feed entry as exposed by the feed parser: optional title, optional
link, and the parsed published timestamp (`published_parsed` converted to
UTC epoch seconds), `none` when the entry lacks a parsable timestamp. -/
structure Entry where
  title : Option String
  link : Option String
  published : Option Int
deriving DecidableEq, Repr

/-- Result of `feedparser.parse(url)`: the `bozo` flag (parse reported a
structural error), the feed-level title, and the ordered entry list. -/
structure ParsedFeed where
  bozo : Bool
  feedTitle : Option String
  entries : List Entry
deriving DecidableEq, Repr

/-- One subscription record, `{'url': url, 'name': name}` in the source. -/
structure Sub where
  url : String
  name : String
deriving DecidableEq, Repr

/-- The persisted state of the service: the subscriber registry
`self.feeds` (a Python dict from user id to subscription list, modelled as
an insertion-ordered association list) and the watermark map
`self.last_check` (dict from url to epoch timestamp; only ever read via
`.get` and written pointwise, so modelled as a function). -/
structure RSSState where
  feeds : List (String × List Sub)
  lastCheck : String → Option Int

/-- `user_id in self.feeds` followed by `self.feeds[user_id]`. -/
def lookupUser (feeds : List (String × List Sub)) (uid : String) :
    Option (List Sub) :=
  (feeds.find? (fun p => p.1 = uid)).map Prod.snd

/-- `self.feeds[user_id] = subs` on a Python dict: overwrite in place when
the key exists, append otherwise. -/
def setUser (feeds : List (String × List Sub)) (uid : String)
    (subs : List Sub) : List (String × List Sub) :=
  if (feeds.find? (fun p => p.1 = uid)).isSome then
    feeds.map (fun p => if p.1 = uid then (uid, subs) else p)
  else
    feeds ++ [(uid, subs)]

/-- Result of `add_feed`, mirroring the `(bool, message)` returns: parse
failure, duplicate subscription, or success carrying the resolved name. -/
inductive AddResult where
  | invalidFeed
  | alreadySubscribed
  | success (name : String)
deriving DecidableEq, Repr

/-- `RSSService.add_feed(user_id, url, name)`.  `fetch` stands for
`feedparser.parse`, `now` for `datetime.now(timezone.utc).timestamp()`.
Mirrors the source line by line: bozo check, name defaulting from the feed
title (`if not name`, so an empty string also triggers the default),
lazy creation of the subscriber's empty list, duplicate-url scan, append,
and the unconditional `self.last_check[url] = now`. -/
def add_feed (fetch : String → ParsedFeed) (now : Int) (s : RSSState)
    (user_id url : String) (name : Option String) : AddResult × RSSState :=
  let feed := fetch url
  if feed.bozo then (.invalidFeed, s)
  else
    let resolvedName :=
      match name with
      | some n => if n = "" then feed.feedTitle.getD url else n
      | none => feed.feedTitle.getD url
    let feeds1 :=
      if (lookupUser s.feeds user_id).isSome then s.feeds
      else s.feeds ++ [(user_id, [])]
    let subs := (lookupUser s.feeds user_id).getD []
    if subs.any (fun f => f.url = url) then
      (.alreadySubscribed, { s with feeds := feeds1 })
    else
      (.success resolvedName,
        { feeds := setUser feeds1 user_id (subs ++ [⟨url, resolvedName⟩]),
          lastCheck := fun u => if u = url then some now else s.lastCheck u })

/-- Result of `remove_feed`: the "找不到指定的訂閱" branch, success carrying
the removed name, or the generic except-branch failure ("取消訂閱失敗",
reached when `list.pop` raises `IndexError` on an index below
`-len`). -/
inductive RemoveResult where
  | notFound
  | removed (name : String)
  | popError
deriving DecidableEq, Repr

/-- The effective index used by Python sequence indexing: a negative
index has the length added once. -/
def pyIndex (len : Nat) (i : Int) : Int :=
  if i < 0 then i + len else i

/-- Python `list.pop(i)` for a possibly negative `Int` index: a negative
index counts from the end; out-of-range raises `IndexError` (here
`none`). Returns the popped element and the remaining list. -/
def pyPop {α : Type} (xs : List α) (i : Int) : Option (α × List α) :=
  if h : 0 ≤ pyIndex xs.length i ∧ pyIndex xs.length i < xs.length then
    some (xs.get ⟨(pyIndex xs.length i).toNat, by omega⟩,
          xs.eraseIdx (pyIndex xs.length i).toNat)
  else
    none

/-- `RSSService.remove_feed(user_id, feed_index)`.  Mirrors the source:
unknown user or `feed_index >= len(...)` gives the not-found message;
otherwise `pop(feed_index)` runs, whose `IndexError` (index below `-len`)
is caught by the surrounding `except`. -/
def remove_feed (s : RSSState) (user_id : String) (feed_index : Int) :
    RemoveResult × RSSState :=
  match lookupUser s.feeds user_id with
  | none => (.notFound, s)
  | some subs =>
    if feed_index ≥ (subs.length : Int) then (.notFound, s)
    else
      match pyPop subs feed_index with
      | none => (.popError, s)
      | some (f, rest) =>
        (.removed f.name, { s with feeds := setUser s.feeds user_id rest })

/-! ### The poll cycle -/

/-- The global names visible inside the `rss_service` module: exactly the
bindings introduced by its import lines plus the class it defines.
`TextSendMessage` is not among them (it is imported only in `app.py`,
a different module scope). -/
def moduleScope : List String :=
  ["feedparser", "datetime", "timezone", "json", "os",
   "BackgroundScheduler", "CronTrigger", "RSSService"]

/-- A push message the source attempts to send: target id and text. -/
structure Notification where
  user : String
  text : String
deriving DecidableEq, Repr

/-- The dispatch expression
`self.line_bot_api.push_message(user_id, TextSendMessage(text=message))`:
evaluating it first resolves the name `TextSendMessage` in the module
scope; an unresolved name raises `NameError` before any network call. -/
def dispatch (user_id message : String) : Except String Notification :=
  if "TextSendMessage" ∈ moduleScope then .ok ⟨user_id, message⟩
  else .error "NameError"

/-- `new_entries`: the loop over `parsed.entries` keeping entries with a
parsable `published_parsed` whose timestamp exceeds `last_check`. -/
def selectNew (entries : List Entry) (last_check : Int) : List Entry :=
  entries.filter (fun e =>
    match e.published with
    | some t => decide (last_check < t)
    | none => false)

/-- One entry's two message lines: `📰 {title}\n🔗 {link}\n\n` with the
source's fallbacks. -/
def renderEntry (e : Entry) : String :=
  "📰 " ++ e.title.getD "無標題" ++ "\n" ++ "🔗 " ++ e.link.getD "#" ++ "\n\n"

/-- The notification text: header plus the first five new entries
(`new_entries[:5]`) rendered in feed order. -/
def composeMessage (name : String) (new_entries : List Entry) : String :=
  "【" ++ name ++ "】有新文章：\n\n"
    ++ String.join ((new_entries.take 5).map renderEntry)

/-- State threaded through one poll cycle: the watermark map, the index of
the next `datetime.now` reading (the source reads the clock once per
processed pair, at the watermark write), successfully delivered pushes,
attempted pushes, and logged dispatch failures. -/
structure PollState where
  lastCheck : String → Option Int
  tick : Nat
  sent : List Notification
  attempted : List Notification
  logged : List String

/-- The body of `check_updates` for one (subscriber, subscription) pair:
read the watermark (`.get(url, 0)`), fetch+parse, `continue` on bozo,
select new entries, compose and attempt dispatch when non-empty (catching
and logging the failure), then write the watermark to the current clock
reading and persist. -/
def processPair (fetch : String → ParsedFeed) (clock : Nat → Int)
    (st : PollState) (user_id : String) (sub : Sub) : PollState :=
  let lc := (st.lastCheck sub.url).getD 0
  let parsed := fetch sub.url
  if parsed.bozo then st
  else
    let new_entries := selectNew parsed.entries lc
    let st1 :=
      if new_entries.isEmpty then st
      else
        let msg := composeMessage sub.name new_entries
        match dispatch user_id msg with
        | .ok n =>
          { st with sent := st.sent ++ [n],
                    attempted := st.attempted ++ [⟨user_id, msg⟩] }
        | .error e =>
          { st with attempted := st.attempted ++ [⟨user_id, msg⟩],
                    logged := st.logged ++ ["發送更新通知失敗：" ++ e] }
    { st1 with
      lastCheck := fun u =>
        if u = sub.url then some (clock st.tick) else st1.lastCheck u,
      tick := st.tick + 1 }

/-- The inner loop of `check_updates`: all subscriptions of one
subscriber, in list order. -/
def pollUser (fetch : String → ParsedFeed) (clock : Nat → Int)
    (st : PollState) (uid : String) (subs : List Sub) : PollState :=
  subs.foldl (fun st sub => processPair fetch clock st uid sub) st

/-- `RSSService.check_updates()`: the double loop over
`self.feeds.items()` and each subscriber's subscription list, starting
from the stored watermark map, tick 0 and no messages. -/
def check_updates (fetch : String → ParsedFeed) (clock : Nat → Int)
    (feeds : List (String × List Sub)) (lastCheck : String → Option Int) :
    PollState :=
  feeds.foldl (fun st p => pollUser fetch clock st p.1 p.2)
    ⟨lastCheck, 0, [], [], []⟩

/-! ### Operation sequences (for the store invariants) -/

/-- One externally triggered mutating operation on the store, carrying
the environment it runs against (the fetch result and the clock reading
at that moment). -/
inductive Op where
  | add (fetch : String → ParsedFeed) (now : Int) (uid url : String)
      (name : Option String)
  | remove (uid : String) (idx : Int)

/-- Apply one operation to the store state, ignoring the reply text. -/
def applyOp (s : RSSState) : Op → RSSState
  | .add fetch now uid url name => (add_feed fetch now s uid url name).2
  | .remove uid idx => (remove_feed s uid idx).2

/-- Run a sequence of add/remove operations. -/
def execOps (s : RSSState) (ops : List Op) : RSSState := ops.foldl applyOp s

/-- The registry invariant: no subscriber's list mentions the same feed
address twice. -/
def NoDupUrls (s : RSSState) : Prop :=
  ∀ p ∈ s.feeds, (p.2.map Sub.url).Nodup

instance (s : RSSState) : Decidable (NoDupUrls s) := by
  unfold NoDupUrls; infer_instance

/-- Pointwise watermark-map dominance: every stored watermark is still
present and at least as large. -/
def wmLE (f g : String → Option Int) : Prop :=
  ∀ u w, f u = some w → ∃ v, g u = some v ∧ w ≤ v

/-- Every stored watermark is at most `t` (all writes so far were clock
readings no later than `t`). -/
def Bounded (f : String → Option Int) (t : Int) : Prop :=
  ∀ u w, f u = some w → w ≤ t

/-! ### Concrete scenario data for witnesses and counterexamples -/

/-- A fetch environment where every address parses, with feed title `T`
and no entries. -/
def fetchOk : String → ParsedFeed := fun _ => ⟨false, some "T", []⟩

/-- Entry published at 90 (below the watermark 100 used in scenarios). -/
def entA : Entry := ⟨some "a", some "la", some 90⟩

/-- Entry published at 105. -/
def entB : Entry := ⟨some "b", some "lb", some 105⟩

/-- Entry with no parsable published timestamp. -/
def entC : Entry := ⟨some "c", some "lc", none⟩

/-- Entry published at 120. -/
def entD : Entry := ⟨some "d", some "ld", some 120⟩

/-- A fetch environment where every address parses and yields the four
scenario entries. -/
def fetchEnt : String → ParsedFeed := fun _ => ⟨false, none, [entA, entB, entC, entD]⟩

/-- A fetch environment where the address `bad` reports a parse error and
every other address parses with one entry. -/
def fetchBad : String → ParsedFeed :=
  fun u => if u = "bad" then ⟨true, none, [entD]⟩ else ⟨false, none, [entD]⟩

/-- A watermark map holding 100 for the address `f` and nothing else. -/
def lcF : String → Option Int := fun u => if u = "f" then some 100 else none

/-- A store with one subscriber `u1` holding feed `f`, watermark 100. -/
def stateOne : RSSState := ⟨[("u1", [⟨"f", "T"⟩])], lcF⟩

/-- A store with one subscriber `u1` holding two feeds `a`, `b`. -/
def stateTwo : RSSState := ⟨[("u1", [⟨"a", "A"⟩, ⟨"b", "B"⟩])], fun _ => none⟩

/-- A poll state mid-cycle: watermarks `lcF`, tick 3, no messages. -/
def pollMid : PollState := ⟨lcF, 3, [], [], []⟩

/-! ### Basic lemmas about the poll-cycle step -/

theorem dispatch_always_fails (u m : String) :
    dispatch u m = .error "NameError" := rfl

theorem processPair_bozo (fetch : String → ParsedFeed) (clock : Nat → Int)
    (st : PollState) (uid : String) (sub : Sub)
    (hb : (fetch sub.url).bozo = true) :
    processPair fetch clock st uid sub = st := by
  simp [processPair, hb]

theorem processPair_lastCheck (fetch : String → ParsedFeed) (clock : Nat → Int)
    (st : PollState) (uid : String) (sub : Sub)
    (hb : (fetch sub.url).bozo = false) (u : String) :
    (processPair fetch clock st uid sub).lastCheck u
      = if u = sub.url then some (clock st.tick) else st.lastCheck u := by
  simp only [processPair, hb, Bool.false_eq_true, if_false, dispatch_always_fails]
  split
  · rfl
  · split <;> rfl

theorem processPair_tick (fetch : String → ParsedFeed) (clock : Nat → Int)
    (st : PollState) (uid : String) (sub : Sub)
    (hb : (fetch sub.url).bozo = false) :
    (processPair fetch clock st uid sub).tick = st.tick + 1 := by
  simp only [processPair, hb, Bool.false_eq_true, if_false, dispatch_always_fails]

theorem processPair_attempted (fetch : String → ParsedFeed) (clock : Nat → Int)
    (st : PollState) (uid : String) (sub : Sub)
    (hb : (fetch sub.url).bozo = false) :
    (processPair fetch clock st uid sub).attempted
      = st.attempted ++
        (if (selectNew (fetch sub.url).entries
              ((st.lastCheck sub.url).getD 0)).isEmpty then []
         else [⟨uid, composeMessage sub.name
                (selectNew (fetch sub.url).entries
                  ((st.lastCheck sub.url).getD 0))⟩]) := by
  simp only [processPair, hb, Bool.false_eq_true, if_false, dispatch_always_fails]
  split
  · simp
  · rfl

theorem processPair_logged (fetch : String → ParsedFeed) (clock : Nat → Int)
    (st : PollState) (uid : String) (sub : Sub)
    (hb : (fetch sub.url).bozo = false) :
    (processPair fetch clock st uid sub).logged
      = st.logged ++
        (if (selectNew (fetch sub.url).entries
              ((st.lastCheck sub.url).getD 0)).isEmpty then []
         else ["發送更新通知失敗：NameError"]) := by
  simp only [processPair, hb, Bool.false_eq_true, if_false, dispatch_always_fails]
  split
  · simp
  · rfl

theorem processPair_sent (fetch : String → ParsedFeed) (clock : Nat → Int)
    (st : PollState) (uid : String) (sub : Sub) :
    (processPair fetch clock st uid sub).sent = st.sent := by
  by_cases hb : (fetch sub.url).bozo
  · rw [processPair_bozo fetch clock st uid sub hb]
  · simp only [processPair, hb, Bool.false_eq_true, if_false, dispatch_always_fails]
    split <;> rfl

theorem pollUser_sent (fetch : String → ParsedFeed) (clock : Nat → Int)
    (uid : String) (subs : List Sub) (st : PollState) :
    (pollUser fetch clock st uid subs).sent = st.sent := by
  induction subs generalizing st with
  | nil => rfl
  | cons sub rest ih =>
    rw [pollUser, List.foldl_cons]
    rw [show List.foldl (fun st sub => processPair fetch clock st uid sub) _ rest
          = pollUser fetch clock (processPair fetch clock st uid sub) uid rest from rfl]
    rw [ih, processPair_sent]

theorem check_updates_sent (fetch : String → ParsedFeed) (clock : Nat → Int)
    (feeds : List (String × List Sub)) (lc : String → Option Int) :
    (check_updates fetch clock feeds lc).sent = [] := by
  suffices h : ∀ st : PollState,
      (feeds.foldl (fun st p => pollUser fetch clock st p.1 p.2) st).sent = st.sent by
    exact h ⟨lc, 0, [], [], []⟩
  induction feeds with
  | nil => intro st; rfl
  | cons p rest ih =>
    intro st
    rw [List.foldl_cons, ih, pollUser_sent]

/-! ### Lemmas about the subscription registry -/

theorem mem_setUser {feeds : List (String × List Sub)} {uid : String}
    {subs : List Sub} {p : String × List Sub}
    (h : p ∈ setUser feeds uid subs) : p = (uid, subs) ∨ p ∈ feeds := by
  unfold setUser at h
  split at h
  · rcases List.mem_map.mp h with ⟨q, hq, hpq⟩
    by_cases hqu : q.1 = uid
    · left; rw [← hpq]; simp [hqu]
    · right; rw [← hpq]; simp only [hqu, if_false]; exact hq
  · rcases List.mem_append.mp h with hm | hm
    · right; exact hm
    · left; simpa using hm

theorem lookup_mem {feeds : List (String × List Sub)} {uid : String}
    {subs : List Sub} (h : lookupUser feeds uid = some subs) :
    (uid, subs) ∈ feeds := by
  unfold lookupUser at h
  cases hf : feeds.find? (fun p => p.1 = uid) with
  | none => rw [hf] at h; cases h
  | some q =>
    rw [hf] at h
    have hq1 : q.1 = uid := by
      have := List.find?_some hf
      simpa using this
    have hmem := List.mem_of_find?_eq_some hf
    have hq2 : q.2 = subs := by simpa using h
    have : q = (uid, subs) := by
      cases q; simp_all
    rw [← this]; exact hmem

theorem pyPop_sublist {α : Type} {xs : List α} {i : Int} {a : α}
    {rest : List α} (h : pyPop xs i = some (a, rest)) :
    List.Sublist rest xs := by
  unfold pyPop at h
  split at h
  · have h2 := (Option.some.injEq _ _).mp h
    have hr : rest = xs.eraseIdx (pyIndex xs.length i).toNat :=
      (congrArg Prod.snd h2).symm
    rw [hr]
    exact List.eraseIdx_sublist xs _
  · cases h

theorem add_preserves_nodup (fetch : String → ParsedFeed) (now : Int)
    (s : RSSState) (uid url : String) (name : Option String)
    (hs : NoDupUrls s) :
    NoDupUrls (add_feed fetch now s uid url name).2 := by
  by_cases hb : (fetch url).bozo
  · simp [add_feed, hb]; exact hs
  · have hmem1 : ∀ p, p ∈ (if (lookupUser s.feeds uid).isSome then s.feeds
        else s.feeds ++ [(uid, ([] : List Sub))]) →
        p = (uid, ([] : List Sub)) ∨ p ∈ s.feeds := by
      intro p hp
      split at hp
      · right; exact hp
      · rcases List.mem_append.mp hp with hm | hm
        · right; exact hm
        · left; simpa using hm
    have hsubs : (((lookupUser s.feeds uid).getD []).map Sub.url).Nodup := by
      cases hl : lookupUser s.feeds uid with
      | none => simp
      | some l =>
        simpa using hs (uid, l) (lookup_mem hl)
    by_cases hd : ((lookupUser s.feeds uid).getD []).any (fun f => f.url = url)
    · simp only [add_feed, Bool.not_eq_true] at hb ⊢
      rw [hb]
      simp only [Bool.false_eq_true, if_false, hd, if_true]
      intro p hp
      rcases hmem1 p hp with rfl | hm
      · simp
      · exact hs p hm
    · simp only [add_feed, Bool.not_eq_true] at hb hd ⊢
      rw [hb]
      simp only [Bool.false_eq_true, if_false, hd, if_true]
      intro p hp
      rcases mem_setUser hp with rfl | hm
      · have hnin : url ∉ ((lookupUser s.feeds uid).getD []).map Sub.url := by
          intro hin
          rcases List.mem_map.mp hin with ⟨f, hf, hfu⟩
          have hcontra : ((lookupUser s.feeds uid).getD []).any
              (fun f => f.url = url) = true :=
            List.any_eq_true.mpr ⟨f, hf, by simp [hfu]⟩
          rw [hd] at hcontra; cases hcontra
        simp only [List.map_append, List.map_cons, List.map_nil]
        rw [List.nodup_append]
        exact ⟨hsubs, List.nodup_singleton url, by simpa using hnin⟩
      · rcases hmem1 p hm with rfl | hm2
        · simp
        · exact hs p hm2

theorem remove_preserves_nodup (s : RSSState) (uid : String) (idx : Int)
    (hs : NoDupUrls s) :
    NoDupUrls (remove_feed s uid idx).2 := by
  unfold remove_feed
  cases hl : lookupUser s.feeds uid with
  | none => exact hs
  | some subs =>
    simp only []
    split
    · exact hs
    · cases hp : pyPop subs idx with
      | none => exact hs
      | some pr =>
        intro p hpm
        rcases mem_setUser hpm with rfl | hm
        · have hsl : List.Sublist pr.2 subs := by
            rcases pr with ⟨a, rest⟩
            exact pyPop_sublist hp
          have hnd := hs (uid, subs) (lookup_mem hl)
          exact hnd.sublist (hsl.map Sub.url)
        · exact hs p hm

theorem execOps_preserves_nodup (s : RSSState) (ops : List Op)
    (hs : NoDupUrls s) : NoDupUrls (execOps s ops) := by
  induction ops generalizing s with
  | nil => exact hs
  | cons op rest ih =>
    rw [execOps, List.foldl_cons]
    show NoDupUrls (execOps (applyOp s op) rest)
    apply ih
    cases op with
    | add fetch now uid url name => exact add_preserves_nodup fetch now s uid url name hs
    | remove uid idx => exact remove_preserves_nodup s uid idx hs

/-! ### Monotonicity machinery for the watermark map -/

theorem wmLE_refl (f : String → Option Int) : wmLE f f :=
  fun _ w h => ⟨w, h, le_refl w⟩

theorem wmLE_trans {f g k : String → Option Int}
    (h1 : wmLE f g) (h2 : wmLE g k) : wmLE f k := by
  intro u w hw
  rcases h1 u w hw with ⟨v, hv, hwv⟩
  rcases h2 u v hv with ⟨x, hx, hvx⟩
  exact ⟨x, hx, le_trans hwv hvx⟩

theorem processPair_mono (fetch : String → ParsedFeed) (clock : Nat → Int)
    (st : PollState) (uid : String) (sub : Sub)
    (hclock : ∀ i j : Nat, i ≤ j → clock i ≤ clock j)
    (hbnd : Bounded st.lastCheck (clock st.tick)) :
    wmLE st.lastCheck (processPair fetch clock st uid sub).lastCheck ∧
    Bounded (processPair fetch clock st uid sub).lastCheck
      (clock (processPair fetch clock st uid sub).tick) := by
  by_cases hb : (fetch sub.url).bozo
  · rw [processPair_bozo fetch clock st uid sub hb]
    exact ⟨wmLE_refl _, hbnd⟩
  · have hb2 : (fetch sub.url).bozo = false := by simpa using hb
    have hlc := processPair_lastCheck fetch clock st uid sub hb2
    have htk := processPair_tick fetch clock st uid sub hb2
    constructor
    · intro u w hw
      rw [hlc u]
      by_cases hu : u = sub.url
      · exact ⟨clock st.tick, by simp [hu], hbnd u w hw⟩
      · exact ⟨w, by simp [hu, hw], le_refl w⟩
    · intro u w hw
      rw [hlc u] at hw
      rw [htk]
      by_cases hu : u = sub.url
      · rw [if_pos hu] at hw
        have : w = clock st.tick := by simpa using hw.symm
        rw [this]
        exact hclock st.tick (st.tick + 1) (Nat.le_succ _)
      · rw [if_neg hu] at hw
        exact le_trans (hbnd u w hw) (hclock st.tick (st.tick + 1) (Nat.le_succ _))

theorem pollUser_mono (fetch : String → ParsedFeed) (clock : Nat → Int)
    (uid : String) (subs : List Sub) (st : PollState)
    (hclock : ∀ i j : Nat, i ≤ j → clock i ≤ clock j)
    (hbnd : Bounded st.lastCheck (clock st.tick)) :
    wmLE st.lastCheck (pollUser fetch clock st uid subs).lastCheck ∧
    Bounded (pollUser fetch clock st uid subs).lastCheck
      (clock (pollUser fetch clock st uid subs).tick) := by
  induction subs generalizing st with
  | nil => exact ⟨wmLE_refl _, hbnd⟩
  | cons sub rest ih =>
    rw [pollUser, List.foldl_cons]
    have hstep := processPair_mono fetch clock st uid sub hclock hbnd
    have htail := ih (processPair fetch clock st uid sub) hstep.2
    rw [show List.foldl (fun st sub => processPair fetch clock st uid sub) _ rest
          = pollUser fetch clock (processPair fetch clock st uid sub) uid rest from rfl]
    exact ⟨wmLE_trans hstep.1 htail.1, htail.2⟩

theorem pollAll_mono (fetch : String → ParsedFeed) (clock : Nat → Int)
    (feeds : List (String × List Sub)) (st : PollState)
    (hclock : ∀ i j : Nat, i ≤ j → clock i ≤ clock j)
    (hbnd : Bounded st.lastCheck (clock st.tick)) :
    wmLE st.lastCheck
      ((feeds.foldl (fun st p => pollUser fetch clock st p.1 p.2) st)).lastCheck ∧
    Bounded ((feeds.foldl (fun st p => pollUser fetch clock st p.1 p.2) st)).lastCheck
      (clock ((feeds.foldl (fun st p => pollUser fetch clock st p.1 p.2) st)).tick) := by
  induction feeds generalizing st with
  | nil => exact ⟨wmLE_refl _, hbnd⟩
  | cons p rest ih =>
    rw [List.foldl_cons]
    have hstep := pollUser_mono fetch clock p.1 p.2 st hclock hbnd
    have htail := ih (pollUser fetch clock st p.1 p.2) hstep.2
    exact ⟨wmLE_trans hstep.1 htail.1, htail.2⟩

/-! ### Claim theorems -/

/-- Claim C1: for every feed whose fetch+parse succeeds during a poll
cycle, `check_updates` selects exactly the entries whose parsable
published timestamp is strictly greater than the feed's stored watermark
(entries lacking a parsable timestamp are excluded), attempts a
notification for exactly that subset, and afterwards sets the feed's
watermark to the cycle's execution time (the clock reading at the
watermark write), not to the maximum entry timestamp. -/
theorem check_updates_new_entry_detection
    (fetch : String → ParsedFeed) (clock : Nat → Int)
    (lc : String → Option Int) (uid : String) (sub : Sub)
    (w : Int) (N : List Entry)
    (hb : (fetch sub.url).bozo = false)
    (hw : w = (lc sub.url).getD 0)
    (hN : N = selectNew (fetch sub.url).entries w) :
    (∀ e, e ∈ N ↔ e ∈ (fetch sub.url).entries ∧
        ∃ t, e.published = some t ∧ w < t) ∧
    (check_updates fetch clock [(uid, [sub])] lc).attempted
      = (if N.isEmpty then [] else [⟨uid, composeMessage sub.name N⟩]) ∧
    (check_updates fetch clock [(uid, [sub])] lc).lastCheck sub.url
      = some (clock 0) := by
  have hcu : check_updates fetch clock [(uid, [sub])] lc
      = processPair fetch clock ⟨lc, 0, [], [], []⟩ uid sub := rfl
  refine ⟨?_, ?_, ?_⟩
  · intro e
    subst hN
    simp only [selectNew, List.mem_filter]
    cases hp : e.published with
    | none => simp [hp]
    | some t => simp [hp]
  · rw [hcu, processPair_attempted fetch clock _ uid sub hb]
    subst hw; subst hN
    simp
  · rw [hcu, processPair_lastCheck fetch clock _ uid sub hb]
    simp

theorem check_updates_new_entry_detection_witness :
    (check_updates fetchEnt (fun _ => 500) [("u1", [⟨"f", "N"⟩])] lcF).attempted
      = [⟨"u1", composeMessage "N" [entB, entD]⟩] ∧
    (check_updates fetchEnt (fun _ => 500) [("u1", [⟨"f", "N"⟩])] lcF).lastCheck "f"
      = some 500 := by
  have h := check_updates_new_entry_detection fetchEnt (fun _ => 500) lcF "u1"
      ⟨"f", "N"⟩ 100 [entB, entD] (by decide) (by decide) (by decide)
  refine ⟨?_, h.2.2⟩
  rw [h.2.1]
  rfl

/-- Claim C2: the name `TextSendMessage` is not bound in the
`rss_service` module scope, so the dispatch expression raises `NameError`
on every attempt; consequently no push notification is ever delivered in
any poll cycle, every (subscriber, feed) pair with new entries produces a
logged dispatch failure, and the watermark still advances afterwards. -/
theorem dispatch_always_raises_name_error :
    "TextSendMessage" ∉ moduleScope ∧
    (∀ u m, dispatch u m = .error "NameError") ∧
    (∀ (fetch : String → ParsedFeed) (clock : Nat → Int) feeds lc,
      (check_updates fetch clock feeds lc).sent = []) ∧
    (∀ (fetch : String → ParsedFeed) (clock : Nat → Int)
        (st : PollState) (uid : String) (sub : Sub),
      (fetch sub.url).bozo = false →
      (selectNew (fetch sub.url).entries
          ((st.lastCheck sub.url).getD 0)).isEmpty = false →
      (processPair fetch clock st uid sub).logged
          = st.logged ++ ["發送更新通知失敗：NameError"] ∧
      (processPair fetch clock st uid sub).lastCheck sub.url
          = some (clock st.tick)) := by
  refine ⟨by decide, dispatch_always_fails, check_updates_sent, ?_⟩
  intro fetch clock st uid sub hb hne
  constructor
  · rw [processPair_logged fetch clock st uid sub hb, hne]
    simp
  · rw [processPair_lastCheck fetch clock st uid sub hb]
    simp

theorem dispatch_always_raises_name_error_witness :
    (check_updates fetchEnt (fun _ => 500) [("u1", [⟨"f", "N"⟩])] lcF).sent = [] ∧
    (processPair fetchEnt (fun _ => 500) pollMid "u1" ⟨"f", "N"⟩).logged
      = ["發送更新通知失敗：NameError"] ∧
    (processPair fetchEnt (fun _ => 500) pollMid "u1" ⟨"f", "N"⟩).lastCheck "f"
      = some 500 := by
  have h := dispatch_always_raises_name_error
  have h4 := h.2.2.2 fetchEnt (fun _ => 500) pollMid "u1" ⟨"f", "N"⟩
      (by decide) (by decide)
  exact ⟨h.2.2.1 fetchEnt (fun _ => 500) [("u1", [⟨"f", "N"⟩])] lcF,
         by rw [h4.1]; rfl, h4.2⟩

/-- Claim C3 counterexample: the watermark for address `f` already exists
(value 100, held because subscriber `u1` subscribed earlier), yet a
successful `add` by the distinct subscriber `u2` overwrites it with the
current time 200 — `add_feed` writes `last_check[url] = now`
unconditionally, with no absence check. -/
theorem add_existing_watermark_overwritten_counterexample :
    stateOne.lastCheck "f" = some 100 ∧
    (add_feed fetchOk 200 stateOne "u2" "f" none).1 = .success "T" ∧
    (add_feed fetchOk 200 stateOne "u2" "f" none).2.lastCheck "f"
      = some 200 := by
  refine ⟨rfl, rfl, rfl⟩

/-- Claim C3 amended: a successful `add(subscriber_id, feed_address,
display_name)` always sets the feed's watermark to the current UTC time,
overwriting any existing watermark for that address (there is no
only-if-absent guard). -/
theorem add_success_overwrites_watermark (fetch : String → ParsedFeed)
    (now : Int) (s : RSSState) (uid url : String) (name : Option String)
    (hb : (fetch url).bozo = false)
    (hd : ((lookupUser s.feeds uid).getD []).any
        (fun f => f.url = url) = false) :
    (add_feed fetch now s uid url name).2.lastCheck url = some now := by
  simp [add_feed, hb, hd]

theorem add_success_overwrites_watermark_witness :
    (add_feed fetchOk 200 stateOne "u2" "f" none).2.lastCheck "f"
      = some 200 :=
  add_success_overwrites_watermark fetchOk 200 stateOne "u2" "f" none
    (by decide) (by decide)

/-- Claim C4 counterexample: `remove("u1", -1)` on a two-element list is
an index outside the range 0..length-1, yet it does not fail with
`NotFound`: Python's negative indexing makes `pop(-1)` remove the last
subscription (the guard only checks `feed_index >= len`). -/
theorem remove_negative_index_counterexample :
    (remove_feed stateTwo "u1" (-1)).1 = .removed "B" ∧
    lookupUser (remove_feed stateTwo "u1" (-1)).2.feeds "u1"
      = some [⟨"a", "A"⟩] := by
  decide

/-- Claim C4 amended: `remove(subscriber_id, index)` fails with
`NotFound`, leaving the state unchanged, whenever `subscriber_id` is
unknown or `index ≥ length`; an index below `-length` also fails (the
caught `IndexError`, surfaced as the generic failure message) with the
state unchanged, while an index in `[-length, -1]` instead succeeds by
Python negative indexing, removing counting from the end. -/
theorem remove_out_of_bounds_not_found (s : RSSState) (uid : String)
    (idx : Int) :
    (lookupUser s.feeds uid = none →
      remove_feed s uid idx = (.notFound, s)) ∧
    (∀ subs, lookupUser s.feeds uid = some subs →
      ((subs.length : Int) ≤ idx → remove_feed s uid idx = (.notFound, s)) ∧
      (idx < -(subs.length : Int) →
        remove_feed s uid idx = (.popError, s))) := by
  constructor
  · intro h
    unfold remove_feed
    rw [h]
  · intro subs h
    constructor
    · intro hge
      unfold remove_feed
      rw [h]
      simp only []
      rw [if_pos (by omega)]
    · intro hlt
      have hlen : (0 : Int) ≤ (subs.length : Int) := by positivity
      have hpi : pyIndex subs.length idx = idx + subs.length := by
        unfold pyIndex
        rw [if_pos (by omega)]
      have hp : pyPop subs idx = none := by
        unfold pyPop
        rw [dif_neg (by rw [hpi]; omega)]
      unfold remove_feed
      rw [h]
      simp only []
      rw [if_neg (by omega), hp]

theorem remove_out_of_bounds_not_found_witness :
    remove_feed stateTwo "u1" 5 = (.notFound, stateTwo) ∧
    remove_feed stateTwo "u1" (-3) = (.popError, stateTwo) ∧
    remove_feed stateTwo "u9" 0 = (.notFound, stateTwo) := by
  have h1 := remove_out_of_bounds_not_found stateTwo "u1" 5
  have h2 := remove_out_of_bounds_not_found stateTwo "u1" (-3)
  have h3 := remove_out_of_bounds_not_found stateTwo "u9" 0
  exact ⟨(h1.2 [⟨"a", "A"⟩, ⟨"b", "B"⟩] (by decide)).1 (by decide),
         (h2.2 [⟨"a", "A"⟩, ⟨"b", "B"⟩] (by decide)).2 (by decide),
         h3.1 (by decide)⟩

/-- Claim C5: starting from any state satisfying the no-duplicate
invariant, after any sequence of add/remove operations every feed address
appears at most once in any subscriber's subscription list (`add` refuses
duplicates, `remove` only deletes). -/
theorem no_duplicate_subscription_addresses (s : RSSState) (ops : List Op)
    (uid addr : String) (subs : List Sub)
    (hs : NoDupUrls s)
    (hl : lookupUser (execOps s ops).feeds uid = some subs) :
    (subs.map Sub.url).count addr ≤ 1 := by
  have hnd := execOps_preserves_nodup s ops hs (uid, subs) (lookup_mem hl)
  exact List.nodup_iff_count_le_one.mp hnd addr

theorem no_duplicate_subscription_addresses_witness :
    (([⟨"f", "T"⟩] : List Sub).map Sub.url).count "f" ≤ 1 :=
  no_duplicate_subscription_addresses ⟨[], fun _ => none⟩
    [.add fetchOk 100 "u1" "f" none, .add fetchOk 150 "u1" "f" none]
    "u1" "f" [⟨"f", "T"⟩] (by decide) (by decide)

/-- Claim C6: assuming the clock's readings are non-decreasing, every
operation that writes a watermark — `add` initializing it to `now`, and
each poll cycle advancing each processed feed to the poll time — leaves
every stored watermark greater than or equal to its previous value
(provided, as the reachability invariant guarantees, that every stored
watermark is at most the current clock reading). -/
theorem watermark_monotone (fetch : String → ParsedFeed) (clock : Nat → Int)
    (feeds : List (String × List Sub)) (lc : String → Option Int)
    (s : RSSState) (uid url : String) (name : Option String) (now : Int)
    (hclock : ∀ i j : Nat, i ≤ j → clock i ≤ clock j) :
    (Bounded s.lastCheck now →
      wmLE s.lastCheck (add_feed fetch now s uid url name).2.lastCheck) ∧
    (Bounded lc (clock 0) →
      wmLE lc (check_updates fetch clock feeds lc).lastCheck) := by
  constructor
  · intro hbnd u w hw
    by_cases hb : (fetch url).bozo
    · simp only [add_feed, hb, if_true]
      exact ⟨w, hw, le_refl w⟩
    · have hb2 : (fetch url).bozo = false := by simpa using hb
      by_cases hd : ((lookupUser s.feeds uid).getD []).any
          (fun f => f.url = url)
      · simp only [add_feed, hb2, Bool.false_eq_true, if_false, hd, if_true]
        exact ⟨w, hw, le_refl w⟩
      · have hd2 : ((lookupUser s.feeds uid).getD []).any
            (fun f => f.url = url) = false := by simpa using hd
        simp only [add_feed, hb2, Bool.false_eq_true, if_false, hd2]
        by_cases hu : u = url
        · subst hu
          exact ⟨now, by simp, hbnd u w hw⟩
        · exact ⟨w, by simp [hu]; exact hw, le_refl w⟩
  · intro hbnd
    exact (pollAll_mono fetch clock feeds ⟨lc, 0, [], [], []⟩ hclock hbnd).1

theorem watermark_monotone_witness :
    wmLE lcF
      (check_updates fetchEnt (fun _ => 500)
        [("u1", [⟨"f", "N"⟩])] lcF).lastCheck ∧
    wmLE stateOne.lastCheck
      (add_feed fetchOk 200 stateOne "u2" "f" none).2.lastCheck := by
  have hbnd100 : ∀ t : Int, 100 ≤ t → Bounded lcF t := by
    intro t ht u w hw
    by_cases hu : u = "f"
    · simp [lcF, hu] at hw
      omega
    · simp [lcF, hu] at hw
  have h1 := watermark_monotone fetchEnt (fun _ => 500)
      [("u1", [⟨"f", "N"⟩])] lcF stateOne "u2" "f" none 200
      (fun i j hij => le_refl 500)
  have h2 := watermark_monotone fetchOk (fun _ => 500) [] lcF
      stateOne "u2" "f" none 200 (fun i j hij => le_refl 500)
  exact ⟨h1.2 (hbnd100 500 (by omega)), h2.1 (hbnd100 200 (by omega))⟩

/-- Claim C7: during a poll cycle, a feed whose fetch+parse reports a
structural error is skipped entirely: no notification is attempted or
sent for it, its watermark is untouched, nothing is raised (the step is
the identity on the cycle state), and the cycle processes the remaining
subscriptions and subscribers exactly as if the bad feed were absent. -/
theorem parse_error_skips_feed (fetch : String → ParsedFeed)
    (clock : Nat → Int) (st : PollState) (uid : String) (sub : Sub)
    (pre post : List (String × List Sub)) (s1 s2 : List Sub)
    (lc : String → Option Int)
    (hb : (fetch sub.url).bozo = true) :
    processPair fetch clock st uid sub = st ∧
    check_updates fetch clock (pre ++ (uid, s1 ++ sub :: s2) :: post) lc
      = check_updates fetch clock (pre ++ (uid, s1 ++ s2) :: post) lc := by
  have hpp : ∀ st2 : PollState, processPair fetch clock st2 uid sub = st2 :=
    fun st2 => processPair_bozo fetch clock st2 uid sub hb
  refine ⟨hpp st, ?_⟩
  have hpoll : ∀ st2 : PollState,
      pollUser fetch clock st2 uid (s1 ++ sub :: s2)
        = pollUser fetch clock st2 uid (s1 ++ s2) := by
    intro st2
    unfold pollUser
    rw [List.foldl_append, List.foldl_append, List.foldl_cons, hpp]
  unfold check_updates
  rw [List.foldl_append, List.foldl_append, List.foldl_cons, List.foldl_cons,
      hpoll]

theorem parse_error_skips_feed_witness :
    processPair fetchBad (fun _ => 500) pollMid "u1" ⟨"bad", "B"⟩
      = pollMid ∧
    check_updates fetchBad (fun _ => 500)
        [("u1", [⟨"bad", "B"⟩, ⟨"f", "N"⟩])] lcF
      = check_updates fetchBad (fun _ => 500) [("u1", [⟨"f", "N"⟩])] lcF :=
  parse_error_skips_feed fetchBad (fun _ => 500) pollMid "u1" ⟨"bad", "B"⟩
    [] [] [] [⟨"f", "N"⟩] lcF (by decide)

/-- Claim C8: when the fetched address parses successfully but already
occurs in the subscriber's list, `add` fails with `AlreadySubscribed` and
mutates nothing: the returned state is exactly the input state, so both
the registry and the watermark map are unchanged.  (Per the spec's check
order, feed validation precedes the duplicate check, so the claim's
condition is taken together with a successful fetch+parse.) -/
theorem add_duplicate_no_mutation (fetch : String → ParsedFeed)
    (now : Int) (s : RSSState) (uid url : String) (name : Option String)
    (hb : (fetch url).bozo = false)
    (hdup : url ∈ ((lookupUser s.feeds uid).getD []).map Sub.url) :
    add_feed fetch now s uid url name = (.alreadySubscribed, s) := by
  rcases List.mem_map.mp hdup with ⟨f, hf, hfu⟩
  have hany : ((lookupUser s.feeds uid).getD []).any
      (fun f => f.url = url) = true :=
    List.any_eq_true.mpr ⟨f, hf, by simp [hfu]⟩
  have hsome : (lookupUser s.feeds uid).isSome = true := by
    cases hl : lookupUser s.feeds uid with
    | none => rw [hl] at hf; simp at hf
    | some l => rfl
  simp [add_feed, hb, hany, hsome]

theorem add_duplicate_no_mutation_witness :
    add_feed fetchOk 300 stateOne "u1" "f" none
      = (.alreadySubscribed, stateOne) :=
  add_duplicate_no_mutation fetchOk 300 stateOne "u1" "f" none
    (by decide) (by decide)

/-- Claim C9: when a poll cycle finds a non-empty selection of new
entries for a feed, it composes a single notification message for that
(subscriber, feed) pair containing at most five entries — the first five
of the selected entries in feed order (syndication feeds list most recent
first, so these are the most-recently-ordered ones) — each rendered with
its title and link. -/
theorem notification_contains_first_five (fetch : String → ParsedFeed)
    (clock : Nat → Int) (st : PollState) (uid : String) (sub : Sub)
    (w : Int) (N : List Entry)
    (hb : (fetch sub.url).bozo = false)
    (hw : w = (st.lastCheck sub.url).getD 0)
    (hN : N = selectNew (fetch sub.url).entries w)
    (hne : N.isEmpty = false) :
    (processPair fetch clock st uid sub).attempted
      = st.attempted ++ [⟨uid, "【" ++ sub.name ++ "】有新文章：\n\n"
          ++ String.join ((N.take 5).map renderEntry)⟩] ∧
    (N.take 5).length ≤ 5 ∧
    (∃ rest, N = N.take 5 ++ rest) ∧
    ∀ e ∈ N.take 5, renderEntry e
        = "📰 " ++ e.title.getD "無標題" ++ "\n" ++ "🔗 " ++ e.link.getD "#"
          ++ "\n\n" := by
  subst hw; subst hN
  refine ⟨?_, ?_, ⟨_, (List.take_append_drop 5 _).symm⟩, fun e _ => rfl⟩
  · rw [processPair_attempted fetch clock st uid sub hb, hne]
    simp [composeMessage]
  · rw [List.length_take]
    exact min_le_left _ _

theorem notification_contains_first_five_witness :
    (processPair fetchEnt (fun _ => 500) pollMid "u1" ⟨"f", "N"⟩).attempted
      = [⟨"u1", "【" ++ "N" ++ "】有新文章：\n\n"
          ++ String.join (([entB, entD].take 5).map renderEntry)⟩] ∧
    ([entB, entD].take 5).length ≤ 5 := by
  have h := notification_contains_first_five fetchEnt (fun _ => 500) pollMid
      "u1" ⟨"f", "N"⟩ 100 [entB, entD] (by decide) (by decide) (by decide)
      (by decide)
  exact ⟨by rw [h.1]; rfl, h.2.1⟩

/-- Claim C10: when two distinct subscribers are subscribed to the same
feed address and a poll cycle finds entries newer than that feed's
watermark (and no entry is dated after the poll's clock), only the
subscriber processed first in iteration order has those entries selected
for notification: the watermark is advanced and re-read between the
per-subscriber checks within the same cycle, so the second subscriber's
check sees the already-advanced watermark and selects no entries. -/
theorem shared_feed_notifies_first_subscriber_only
    (fetch : String → ParsedFeed) (clock : Nat → Int)
    (u1 u2 n1 n2 url : String) (lc : String → Option Int) (N : List Entry)
    (hb : (fetch url).bozo = false)
    (hN : N = selectNew (fetch url).entries ((lc url).getD 0))
    (hne : N.isEmpty = false)
    (hfut : ∀ e ∈ (fetch url).entries, ∀ t, e.published = some t →
      t ≤ clock 0) :
    selectNew (fetch url).entries (clock 0) = [] ∧
    (check_updates fetch clock
        [(u1, [⟨url, n1⟩]), (u2, [⟨url, n2⟩])] lc).attempted
      = [⟨u1, composeMessage n1 N⟩] ∧
    (check_updates fetch clock
        [(u1, [⟨url, n1⟩]), (u2, [⟨url, n2⟩])] lc).lastCheck url
      = some (clock 1) := by
  have hsel : selectNew (fetch url).entries (clock 0) = [] := by
    rw [selectNew, List.filter_eq_nil_iff]
    intro e he
    cases hp : e.published with
    | none => simp [hp]
    | some t =>
      have hle := hfut e he t hp
      simp [hp]
      omega
  have hcu : check_updates fetch clock
        [(u1, [⟨url, n1⟩]), (u2, [⟨url, n2⟩])] lc
      = processPair fetch clock
          (processPair fetch clock ⟨lc, 0, [], [], []⟩ u1 ⟨url, n1⟩)
          u2 ⟨url, n2⟩ := rfl
  have h1lc : (processPair fetch clock ⟨lc, 0, [], [], []⟩ u1
        ⟨url, n1⟩).lastCheck url = some (clock 0) := by
    rw [processPair_lastCheck fetch clock _ u1 ⟨url, n1⟩ hb]
    simp
  have h1tk : (processPair fetch clock ⟨lc, 0, [], [], []⟩ u1
        ⟨url, n1⟩).tick = 1 :=
    processPair_tick fetch clock _ u1 ⟨url, n1⟩ hb
  have h1at : (processPair fetch clock ⟨lc, 0, [], [], []⟩ u1
        ⟨url, n1⟩).attempted = [⟨u1, composeMessage n1 N⟩] := by
    rw [processPair_attempted fetch clock _ u1 ⟨url, n1⟩ hb]
    rw [show ((⟨lc, 0, [], [], []⟩ : PollState).lastCheck
        (⟨url, n1⟩ : Sub).url).getD 0 = (lc url).getD 0 from rfl, ← hN, hne]
    simp
  have h2at : (processPair fetch clock
        (processPair fetch clock ⟨lc, 0, [], [], []⟩ u1 ⟨url, n1⟩)
        u2 ⟨url, n2⟩).attempted = [⟨u1, composeMessage n1 N⟩] := by
    rw [processPair_attempted fetch clock _ u2 ⟨url, n2⟩ hb]
    rw [show ((processPair fetch clock ⟨lc, 0, [], [], []⟩ u1
          ⟨url, n1⟩).lastCheck (⟨url, n2⟩ : Sub).url)
        = (processPair fetch clock ⟨lc, 0, [], [], []⟩ u1
          ⟨url, n1⟩).lastCheck url from rfl, h1lc]
    rw [show (some (clock 0)).getD 0 = clock 0 from rfl, hsel]
    rw [h1at]
    simp
  have h2lc : (processPair fetch clock
        (processPair fetch clock ⟨lc, 0, [], [], []⟩ u1 ⟨url, n1⟩)
        u2 ⟨url, n2⟩).lastCheck url = some (clock 1) := by
    rw [processPair_lastCheck fetch clock _ u2 ⟨url, n2⟩ hb]
    rw [show (⟨url, n2⟩ : Sub).url = url from rfl, if_pos rfl, h1tk]
  exact ⟨hsel, by rw [hcu, h2at], by rw [hcu, h2lc]⟩

theorem shared_feed_notifies_first_subscriber_only_witness :
    selectNew (fetchEnt "f").entries 500 = [] ∧
    (check_updates fetchEnt (fun k => 500 + k)
        [("u1", [⟨"f", "N1"⟩]), ("u2", [⟨"f", "N2"⟩])] lcF).attempted
      = [⟨"u1", composeMessage "N1" [entB, entD]⟩] ∧
    (check_updates fetchEnt (fun k => 500 + k)
        [("u1", [⟨"f", "N1"⟩]), ("u2", [⟨"f", "N2"⟩])] lcF).lastCheck "f"
      = some 501 := by
  have h := shared_feed_notifies_first_subscriber_only fetchEnt
      (fun k => (500 : Int) + k) "u1" "u2" "N1" "N2" "f" lcF [entB, entD]
      (by decide) (by decide) (by decide)
      (by
        intro e he t hp
        show t ≤ (500 : Int) + (0 : Nat)
        simp [fetchEnt, entA, entB, entC, entD] at he
        rcases he with rfl | rfl | rfl | rfl <;>
          simp [entA, entB, entC, entD] at hp <;> omega)
  refine ⟨?_, h.2.1, ?_⟩
  · have := h.1
    simpa using this
  · have := h.2.2
    simpa using this

end RSS
